import Mathlib

/- Formalisation of the resource-reservation engine of src/HotelManagement.py.

   Modelling conventions, each justified by the source:
   - Python object references (guest, room stored inside a Reservation) are
     modelled by numeric identities into the registries owned by the
     coordinator; the coordinator mutates the registry entry, which in Python
     is the very object the reservation aliases.  String identifiers are
     modelled as numeric identifiers (any type with decidable equality works).
   - Every coordinator operation runs while holding the global HMS lock, and
     the per-object locks nest inside it, so each operation is modelled as one
     atomic step on the whole system state.
   - _generate_reservation_id draws a fresh random identifier; it is modelled
     as a monotone counter, which keeps exactly the property the code relies
     on: the new identifier is not already in the reservations map.
   - float prices are modelled as integers (exact arithmetic; no behaviour of the source depends on fractional amounts); datetime.date values are modelled
     as integer day numbers, so that (d2 - d1).days becomes d2 - d1.
   - a raised ValueError is modelled as an err result carrying a constructor
     that stands for the message text; mutations performed before the raise
     are kept, exactly as the Python objects keep them. -/

inductive RoomType where
  | SINGLE
  | DOUBLE
  | DELUXE
  | SUITE
deriving DecidableEq

inductive RoomStatus where
  | AVAILABLE
  | BOOKED
  | OCCUPIED
deriving DecidableEq

/-- Constructors standing for the ValueError messages raised by the source:
roomNotAvailable = Room is not available for booking. ;
roomNotBooked = Room is not booked. ;
roomNotOccupied = Room is not occupied. ;
reservationNotConfirmed = Reservation is not confirmed. ;
invalidReservation = Invalid reservation or reservation not confirmed. ;
paymentFailed = Payment failed. -/
inductive HError where
  | roomNotAvailable
  | roomNotBooked
  | roomNotOccupied
  | reservationNotConfirmed
  | invalidReservation
  | paymentFailed
deriving DecidableEq

structure Room where
  id : Nat
  type : RoomType
  price : ℤ
  status : RoomStatus
deriving DecidableEq

/-- Room.book: AVAILABLE flips to BOOKED, anything else raises. -/
def Room.book (r : Room) : Except HError Room :=
  if r.status = RoomStatus.AVAILABLE then Except.ok { r with status := RoomStatus.BOOKED }
  else Except.error HError.roomNotAvailable

/-- Room.check_in: BOOKED flips to OCCUPIED, anything else raises. -/
def Room.check_in (r : Room) : Except HError Room :=
  if r.status = RoomStatus.BOOKED then Except.ok { r with status := RoomStatus.OCCUPIED }
  else Except.error HError.roomNotBooked

/-- Room.check_out: OCCUPIED flips to AVAILABLE, anything else raises. -/
def Room.check_out (r : Room) : Except HError Room :=
  if r.status = RoomStatus.OCCUPIED then Except.ok { r with status := RoomStatus.AVAILABLE }
  else Except.error HError.roomNotOccupied

inductive ReservationStatus where
  | CONFIRMED
  | CANCELLED
deriving DecidableEq

structure Reservation where
  id : Nat
  guestId : Nat
  roomId : Nat
  check_in_date : ℤ
  check_out_date : ℤ
  status : ReservationStatus
deriving DecidableEq

/-- Embeds Reservation.__init__: the fields are stored exactly as given and the
status starts CONFIRMED.  The source performs no validation of the dates. -/
def Reservation.create (id guestId roomId : Nat) (check_in_date check_out_date : ℤ) :
    Reservation :=
  { id := id, guestId := guestId, roomId := roomId,
    check_in_date := check_in_date, check_out_date := check_out_date,
    status := ReservationStatus.CONFIRMED }

/-- Embeds Reservation.cancel acting on the reservation and its bound room.
The status is set to CANCELLED first; only then is Room.check_out invoked, so
when Room.check_out raises, the CANCELLED write has already happened and is
kept.  The result is (raised error if any, reservation after the call, room
after the call). -/
def Reservation.cancel (res : Reservation) (room : Room) :
    Option HError × Reservation × Room :=
  if res.status = ReservationStatus.CONFIRMED then
    match Room.check_out room with
    | Except.ok room2 => (none, { res with status := ReservationStatus.CANCELLED }, room2)
    | Except.error e => (some e, { res with status := ReservationStatus.CANCELLED }, room)
  else (some HError.reservationNotConfirmed, res, room)

/-- Result of one coordinator call: booked rid models book_room returning a
Reservation, bookFailed models book_room returning None, ok models an ordinary
return, err models a raised ValueError. -/
inductive HResult where
  | booked (rid : Nat)
  | bookFailed
  | ok
  | err (e : HError)
deriving DecidableEq

/-- The state owned by the HotelManagementSystem singleton: the room registry,
the active reservation index, the identifier source, plus a log of the amounts
the payment capability accepted (recording that process_payment returned True,
i.e. the money was taken).  The guest registry never influences any operation
modelled here and is omitted. -/
structure HotelManagementSystem where
  rooms : List Room
  reservations : List Reservation
  nextId : Nat
  charges : List ℤ
deriving DecidableEq

/-- Dictionary lookup rooms.get, with the object reference modelled by id. -/
def findRoom (s : HotelManagementSystem) (roomId : Nat) : Option Room :=
  s.rooms.find? (fun r => decide (r.id = roomId))

/-- Dictionary lookup reservations.get(reservation_id). -/
def findRes (s : HotelManagementSystem) (rid : Nat) : Option Reservation :=
  s.reservations.find? (fun r => decide (r.id = rid))

/-- Write back a mutated Room object into the registry (in Python the object
is mutated in place, aliased by the map). -/
def updRoom (rooms : List Room) (roomId : Nat) (new : Room) : List Room :=
  rooms.map (fun r => if r.id = roomId then new else r)

/-- Write back a mutated Reservation object into the active index. -/
def updRes (l : List Reservation) (rid : Nat) (new : Reservation) : List Reservation :=
  l.map (fun r => if r.id = rid then new else r)

/-- del self.reservations[reservation_id]. -/
def delRes (l : List Reservation) (rid : Nat) : List Reservation :=
  l.filter (fun r => decide (r.id ≠ rid))

/-- amount = room.price * nights where nights = (check_out_date - check_in_date).days. -/
def resAmount (room : Room) (res : Reservation) : ℤ :=
  room.price * (res.check_out_date - res.check_in_date)

/-- Embeds HotelManagementSystem.book_room.  Under the AVAILABLE guard (and the
global lock) room.book() necessarily succeeds and flips the status to BOOKED;
otherwise the method returns None without touching anything. -/
def HotelManagementSystem.book_room (s : HotelManagementSystem) (guestId roomId : Nat)
    (check_in_date check_out_date : ℤ) : HResult × HotelManagementSystem :=
  match findRoom s roomId with
  | some room =>
    if room.status = RoomStatus.AVAILABLE then
      (HResult.booked s.nextId,
       { s with rooms := updRoom s.rooms roomId { room with status := RoomStatus.BOOKED },
                reservations :=
                  Reservation.create s.nextId guestId roomId check_in_date check_out_date
                    :: s.reservations,
                nextId := s.nextId + 1 })
    else (HResult.bookFailed, s)
  | none => (HResult.bookFailed, s)

/-- Embeds HotelManagementSystem.check_in: requires the reservation to exist and
be CONFIRMED, then delegates to Room.check_in on the bound room.  The none room
branch is unreachable from states built by the coordinator, because every
reservation holds a direct reference to a registered room. -/
def HotelManagementSystem.check_in (s : HotelManagementSystem) (rid : Nat) :
    HResult × HotelManagementSystem :=
  match findRes s rid with
  | some res =>
    if res.status = ReservationStatus.CONFIRMED then
      match findRoom s res.roomId with
      | some room =>
        match Room.check_in room with
        | Except.ok room2 => (HResult.ok, { s with rooms := updRoom s.rooms res.roomId room2 })
        | Except.error e => (HResult.err e, s)
      | none => (HResult.err HError.invalidReservation, s)
    else (HResult.err HError.invalidReservation, s)
  | none => (HResult.err HError.invalidReservation, s)

/-- Embeds HotelManagementSystem.check_out.  The payment capability is invoked
first; only when it returns True is room.check_out() attempted, and only when
that succeeds is the reservation deleted.  When room.check_out() raises, the
money has already been taken (charges grew) but no domain state changed.  When
the capability returns False, the method raises before touching anything. -/
def HotelManagementSystem.check_out (s : HotelManagementSystem) (rid : Nat)
    (payment : ℤ → Bool) : HResult × HotelManagementSystem :=
  match findRes s rid with
  | some res =>
    if res.status = ReservationStatus.CONFIRMED then
      match findRoom s res.roomId with
      | some room =>
        if payment (resAmount room res) then
          match Room.check_out room with
          | Except.ok room2 =>
            (HResult.ok,
             { s with rooms := updRoom s.rooms res.roomId room2,
                      reservations := delRes s.reservations rid,
                      charges := s.charges ++ [resAmount room res] })
          | Except.error e =>
            (HResult.err e, { s with charges := s.charges ++ [resAmount room res] })
        else (HResult.err HError.paymentFailed, s)
      | none => (HResult.err HError.invalidReservation, s)
    else (HResult.err HError.invalidReservation, s)
  | none => (HResult.err HError.invalidReservation, s)

/-- Embeds HotelManagementSystem.cancel_reservation.  For an unknown identifier
the source silently returns (the if reservation: guard has no else branch).
Otherwise reservation.cancel() runs; when it raises, the exception propagates
before the del statement, so the (possibly mutated) reservation object stays in
the index; when it returns, the reservation is deleted. -/
def HotelManagementSystem.cancel_reservation (s : HotelManagementSystem) (rid : Nat) :
    HResult × HotelManagementSystem :=
  match findRes s rid with
  | none => (HResult.ok, s)
  | some res =>
    match findRoom s res.roomId with
    | none => (HResult.err HError.reservationNotConfirmed, s)
    | some room =>
      match Reservation.cancel res room with
      | (none, _, room2) =>
        (HResult.ok, { s with rooms := updRoom s.rooms res.roomId room2,
                              reservations := delRes s.reservations rid })
      | (some e, res2, _) =>
        (HResult.err e, { s with reservations := updRes s.reservations rid res2 })

/-- One coordinator call, for building traces of the system. -/
inductive Op where
  | book (guestId roomId : Nat) (check_in_date check_out_date : ℤ)
  | checkIn (rid : Nat)
  | checkOut (rid : Nat) (payment : ℤ → Bool)
  | cancel (rid : Nat)

def step (s : HotelManagementSystem) : Op → HResult × HotelManagementSystem
  | Op.book g r d1 d2 => s.book_room g r d1 d2
  | Op.checkIn rid => s.check_in rid
  | Op.checkOut rid pay => s.check_out rid pay
  | Op.cancel rid => s.cancel_reservation rid

def run (s : HotelManagementSystem) : List Op → HotelManagementSystem
  | [] => s
  | op :: ops => run (step s op).2 ops

/-- The system as assembled by add_room calls: every Room constructor starts the
room AVAILABLE, the reservation index starts empty. -/
def initHMS (pool : List (Nat × RoomType × ℤ)) : HotelManagementSystem :=
  { rooms := pool.map (fun p =>
      { id := p.1, type := p.2.1, price := p.2.2, status := RoomStatus.AVAILABLE }),
    reservations := [], nextId := 0, charges := [] }

/-- A state is reachable when some sequence of coordinator calls produces it
from a freshly assembled system. -/
def Reachable (s : HotelManagementSystem) : Prop :=
  ∃ pool ops, s = run (initHMS pool) ops

/-- N book calls against the same room, serialised by the coordinator lock:
each call is atomic, so any interleaving is some sequential order, and the
order of the list is an arbitrary such order.  Each entry carries the guest
and the two dates of one call. -/
def runBooks (s : HotelManagementSystem) (roomId : Nat) :
    List (Nat × ℤ × ℤ) → List HResult × HotelManagementSystem
  | [] => ([], s)
  | c :: cs =>
    let r := s.book_room c.1 roomId c.2.1 c.2.2
    let rest := runBooks r.2 roomId cs
    (r.1 :: rest.1, rest.2)

def isBooked : HResult → Bool
  | HResult.booked _ => true
  | _ => false

/-- How many reservations in the active index reference the room and are
CONFIRMED. -/
def confirmedCount (s : HotelManagementSystem) (roomId : Nat) : Nat :=
  (s.reservations.filter
    (fun r => decide (r.roomId = roomId ∧ r.status = ReservationStatus.CONFIRMED))).length

/-- Every indexed reservation has an identifier below the counter, so a fresh
identifier is never already indexed. -/
def IdsFresh (s : HotelManagementSystem) : Prop :=
  ∀ r ∈ s.reservations, r.id < s.nextId

def IdsNodup (s : HotelManagementSystem) : Prop :=
  (s.reservations.map Reservation.id).Nodup

/-- Two CONFIRMED reservations on the same room are the same reservation. -/
def AtMostOneConfirmed (s : HotelManagementSystem) : Prop :=
  ∀ r1 ∈ s.reservations, ∀ r2 ∈ s.reservations,
    r1.status = ReservationStatus.CONFIRMED → r2.status = ReservationStatus.CONFIRMED →
    r1.roomId = r2.roomId → r1.id = r2.id

/-- An AVAILABLE room is referenced by no CONFIRMED reservation. -/
def AvailFree (s : HotelManagementSystem) : Prop :=
  ∀ room ∈ s.rooms, room.status = RoomStatus.AVAILABLE →
    ∀ r ∈ s.reservations, r.roomId = room.id → r.status ≠ ReservationStatus.CONFIRMED

def SysInv (s : HotelManagementSystem) : Prop :=
  IdsFresh s ∧ IdsNodup s ∧ AtMostOneConfirmed s ∧ AvailFree s

/- Concrete states used to evaluate the operations: one SINGLE room with
identifier 1 and nightly rate 100; guest identifier 7; a booking for the
two nights from day 0 to day 2. -/

def poolR1 : List (Nat × RoomType × ℤ) := [(1, RoomType.SINGLE, 100)]

def sInit : HotelManagementSystem := initHMS poolR1

def sBooked : HotelManagementSystem := run sInit [Op.book 7 1 0 2]

def sOccupied : HotelManagementSystem := run sInit [Op.book 7 1 0 2, Op.checkIn 0]

def sAfterBadCancel : HotelManagementSystem := run sInit [Op.book 7 1 0 2, Op.cancel 0]

/-- The reservation object created by the booking above. -/
def resB : Reservation := Reservation.create 0 7 1 0 2

/-- The room object right after the booking above. -/
def roomB : Room := { id := 1, type := RoomType.SINGLE, price := 100, status := RoomStatus.BOOKED }

/-- The room object as freshly registered (AVAILABLE). -/
def roomA : Room := { id := 1, type := RoomType.SINGLE, price := 100, status := RoomStatus.AVAILABLE }

/-- The room object after check-in (OCCUPIED). -/
def roomO : Room := { id := 1, type := RoomType.SINGLE, price := 100, status := RoomStatus.OCCUPIED }

/-- Three concurrent booking attempts by guests 7, 8 and 9 for the same dates. -/
def callsW : List (Nat × ℤ × ℤ) := [(7, 0, 2), (8, 0, 2), (9, 0, 2)]

/- Helper lemmas about the registry plumbing. -/

theorem findRes_some {s : HotelManagementSystem} {rid : Nat} {res : Reservation}
    (h : findRes s rid = some res) : res ∈ s.reservations ∧ res.id = rid := by
  unfold findRes at h
  have h2 := List.find?_some h
  exact ⟨List.mem_of_find?_eq_some h, of_decide_eq_true h2⟩

theorem findRoom_some {s : HotelManagementSystem} {roomId : Nat} {room : Room}
    (h : findRoom s roomId = some room) : room ∈ s.rooms ∧ room.id = roomId := by
  unfold findRoom at h
  have h2 := List.find?_some h
  exact ⟨List.mem_of_find?_eq_some h, of_decide_eq_true h2⟩

theorem mem_updRes {l : List Reservation} {rid : Nat} {new r : Reservation}
    (h : r ∈ updRes l rid new) : r = new ∨ (r ∈ l ∧ r.id ≠ rid) := by
  rcases List.mem_map.mp h with ⟨a, ha, heq⟩
  by_cases hid : a.id = rid
  · left
    rw [if_pos hid] at heq
    exact heq.symm
  · right
    rw [if_neg hid] at heq
    exact ⟨heq ▸ ha, heq ▸ hid⟩

theorem mem_updRoom {l : List Room} {roomId : Nat} {new r : Room}
    (h : r ∈ updRoom l roomId new) : r = new ∨ (r ∈ l ∧ r.id ≠ roomId) := by
  rcases List.mem_map.mp h with ⟨a, ha, heq⟩
  by_cases hid : a.id = roomId
  · left
    rw [if_pos hid] at heq
    exact heq.symm
  · right
    rw [if_neg hid] at heq
    exact ⟨heq ▸ ha, heq ▸ hid⟩

theorem mem_delRes {l : List Reservation} {rid : Nat} {r : Reservation}
    (h : r ∈ delRes l rid) : r ∈ l ∧ r.id ≠ rid := by
  have h2 := List.mem_filter.mp h
  exact ⟨h2.1, of_decide_eq_true h2.2⟩

theorem map_id_updRes (l : List Reservation) (rid : Nat) (new : Reservation)
    (hnew : new.id = rid) :
    (updRes l rid new).map Reservation.id = l.map Reservation.id := by
  unfold updRes
  rw [List.map_map]
  apply List.map_congr_left
  intro a _
  by_cases hid : a.id = rid
  · simp [hid, hnew]
  · simp [hid]

theorem find?_updRes_self {l : List Reservation} {rid : Nat} {new res : Reservation}
    (hnew : new.id = rid)
    (h : l.find? (fun r => decide (r.id = rid)) = some res) :
    (updRes l rid new).find? (fun r => decide (r.id = rid)) = some new := by
  induction l with
  | nil => simp at h
  | cons a t ih =>
    by_cases hid : a.id = rid
    · have : (updRes (a :: t) rid new) = new :: updRes t rid new := by
        simp [updRes, hid]
      rw [this]
      exact List.find?_cons_of_pos _ (by simp [hnew])
    · have hcons : (updRes (a :: t) rid new) = a :: updRes t rid new := by
        simp [updRes, hid]
      rw [hcons, List.find?_cons_of_neg _ (by simp [hid])]
      rw [List.find?_cons_of_neg _ (by simp [hid])] at h
      exact ih h

theorem find?_updRoom_self {l : List Room} {roomId : Nat} {new room : Room}
    (hnew : new.id = roomId)
    (h : l.find? (fun r => decide (r.id = roomId)) = some room) :
    (updRoom l roomId new).find? (fun r => decide (r.id = roomId)) = some new := by
  induction l with
  | nil => simp at h
  | cons a t ih =>
    by_cases hid : a.id = roomId
    · have : (updRoom (a :: t) roomId new) = new :: updRoom t roomId new := by
        simp [updRoom, hid]
      rw [this]
      exact List.find?_cons_of_pos _ (by simp [hnew])
    · have hcons : (updRoom (a :: t) roomId new) = a :: updRoom t roomId new := by
        simp [updRoom, hid]
      rw [hcons, List.find?_cons_of_neg _ (by simp [hid])]
      rw [List.find?_cons_of_neg _ (by simp [hid])] at h
      exact ih h

theorem find?_delRes_self (l : List Reservation) (rid : Nat) :
    (delRes l rid).find? (fun r => decide (r.id = rid)) = none := by
  apply List.find?_eq_none.mpr
  intro x hx
  have := (mem_delRes hx).2
  simpa using this

/-- Room.check_out succeeds exactly from OCCUPIED, and then yields the AVAILABLE room. -/
theorem Room.check_out_ok {r room2 : Room} (h : Room.check_out r = Except.ok room2) :
    r.status = RoomStatus.OCCUPIED ∧ room2 = { r with status := RoomStatus.AVAILABLE } := by
  unfold Room.check_out at h
  by_cases hs : r.status = RoomStatus.OCCUPIED
  · rw [if_pos hs] at h
    exact ⟨hs, (Except.ok.injEq _ _ ▸ h).symm⟩
  · rw [if_neg hs] at h
    cases h

/-- Room.check_in succeeds exactly from BOOKED, and then yields the OCCUPIED room. -/
theorem Room.check_in_ok {r room2 : Room} (h : Room.check_in r = Except.ok room2) :
    r.status = RoomStatus.BOOKED ∧ room2 = { r with status := RoomStatus.OCCUPIED } := by
  unfold Room.check_in at h
  by_cases hs : r.status = RoomStatus.BOOKED
  · rw [if_pos hs] at h
    exact ⟨hs, (Except.ok.injEq _ _ ▸ h).symm⟩
  · rw [if_neg hs] at h
    cases h

/- Preservation of the system invariant by each coordinator operation. -/

theorem sysInv_book_room (s : HotelManagementSystem) (hInv : SysInv s)
    (g roomId : Nat) (d1 d2 : ℤ) : SysInv (s.book_room g roomId d1 d2).2 := by
  obtain ⟨hF, hN, hA, hV⟩ := hInv
  unfold HotelManagementSystem.book_room
  cases hroom : findRoom s roomId with
  | none => exact ⟨hF, hN, hA, hV⟩
  | some room =>
    dsimp only
    by_cases hav : room.status = RoomStatus.AVAILABLE
    · rw [if_pos hav]
      obtain ⟨hmem, hid⟩ := findRoom_some hroom
      refine ⟨?_, ?_, ?_, ?_⟩
      · intro r hr
        rcases List.mem_cons.mp hr with rfl | hr2
        · exact Nat.lt_succ_self _
        · exact Nat.lt_succ_of_lt (hF r hr2)
      · refine List.nodup_cons.mpr ⟨?_, hN⟩
        intro hmemid
        rcases List.mem_map.mp hmemid with ⟨r, hr, hrid⟩
        exact absurd hrid (Nat.ne_of_lt (hF r hr))
      · intro r1 h1 r2 h2 hc1 hc2 hrm
        rcases List.mem_cons.mp h1 with rfl | h1b
        · rcases List.mem_cons.mp h2 with rfl | h2b
          · rfl
          · exact absurd hc2 (hV room hmem hav r2 h2b (hrm.symm.trans hid.symm))
        · rcases List.mem_cons.mp h2 with rfl | h2b
          · exact absurd hc1 (hV room hmem hav r1 h1b (hrm.trans hid.symm))
          · exact hA r1 h1b r2 h2b hc1 hc2 hrm
      · intro room1 hroom1 hav1 r hr hrm
        rcases mem_updRoom hroom1 with rfl | ⟨hmem1, hne1⟩
        · exact absurd hav1 (fun hx => RoomStatus.noConfusion hx)
        · rcases List.mem_cons.mp hr with rfl | hr2
          · intro _
            exact hne1 hrm.symm
          · exact hV room1 hmem1 hav1 r hr2 hrm
    · rw [if_neg hav]
      exact ⟨hF, hN, hA, hV⟩

theorem sysInv_check_in (s : HotelManagementSystem) (hInv : SysInv s) (rid : Nat) :
    SysInv (s.check_in rid).2 := by
  obtain ⟨hF, hN, hA, hV⟩ := hInv
  unfold HotelManagementSystem.check_in
  cases hres : findRes s rid with
  | none => exact ⟨hF, hN, hA, hV⟩
  | some res =>
    dsimp only
    by_cases hconf : res.status = ReservationStatus.CONFIRMED
    · rw [if_pos hconf]
      cases hroom : findRoom s res.roomId with
      | none => exact ⟨hF, hN, hA, hV⟩
      | some room =>
        dsimp only
        cases hci : Room.check_in room with
        | error e => exact ⟨hF, hN, hA, hV⟩
        | ok room2 =>
          dsimp only
          obtain ⟨hb, rfl⟩ := Room.check_in_ok hci
          refine ⟨hF, hN, hA, ?_⟩
          intro room1 hroom1 hav1 r hr hrm
          rcases mem_updRoom hroom1 with rfl | ⟨hmem1, hne1⟩
          · exact absurd hav1 (fun hx => RoomStatus.noConfusion hx)
          · exact hV room1 hmem1 hav1 r hr hrm
    · rw [if_neg hconf]
      exact ⟨hF, hN, hA, hV⟩

theorem sysInv_release (s : HotelManagementSystem) (hInv : SysInv s) (rid : Nat)
    (res : Reservation) (room : Room) (c : List ℤ)
    (hres : findRes s rid = some res) (hconf : res.status = ReservationStatus.CONFIRMED)
    (hroom : findRoom s res.roomId = some room) :
    SysInv { s with
             rooms := updRoom s.rooms res.roomId { room with status := RoomStatus.AVAILABLE },
             reservations := delRes s.reservations rid,
             charges := c } := by
  obtain ⟨hF, hN, hA, hV⟩ := hInv
  obtain ⟨hresmem, hresid⟩ := findRes_some hres
  obtain ⟨hroommem, hroomid⟩ := findRoom_some hroom
  refine ⟨?_, ?_, ?_, ?_⟩
  · intro r hr
    exact hF r (mem_delRes hr).1
  · exact List.Nodup.sublist (List.Sublist.map Reservation.id (List.filter_sublist _)) hN
  · intro r1 h1 r2 h2 hc1 hc2 hrm
    exact hA r1 (mem_delRes h1).1 r2 (mem_delRes h2).1 hc1 hc2 hrm
  · intro room1 hroom1 hav1 r hr hrm
    rcases mem_updRoom hroom1 with rfl | ⟨hmem1, hne1⟩
    · intro hc
      obtain ⟨hrmem, hrne⟩ := mem_delRes hr
      have hrid : r.id = res.id :=
        hA r hrmem res hresmem hc hconf (by rw [hrm, hroomid])
      exact hrne (hrid.trans hresid)
    · obtain ⟨hrmem, _⟩ := mem_delRes hr
      exact hV room1 hmem1 hav1 r hrmem hrm

theorem sysInv_updCancelled (s : HotelManagementSystem) (hInv : SysInv s) (rid : Nat)
    (res res2 : Reservation)
    (hres : findRes s rid = some res) (hid2 : res2.id = rid)
    (hnc : res2.status ≠ ReservationStatus.CONFIRMED) :
    SysInv { s with reservations := updRes s.reservations rid res2 } := by
  obtain ⟨hF, hN, hA, hV⟩ := hInv
  obtain ⟨hresmem, hresid⟩ := findRes_some hres
  refine ⟨?_, ?_, ?_, ?_⟩
  · intro r hr
    rcases mem_updRes hr with rfl | ⟨hmem, _⟩
    · rw [hid2, ← hresid]
      exact hF res hresmem
    · exact hF r hmem
  · show ((updRes s.reservations rid res2).map Reservation.id).Nodup
    rw [map_id_updRes s.reservations rid res2 hid2]
    exact hN
  · intro r1 h1 r2 h2 hc1 hc2 hrm
    rcases mem_updRes h1 with rfl | ⟨hm1, _⟩
    · exact absurd hc1 hnc
    · rcases mem_updRes h2 with rfl | ⟨hm2, _⟩
      · exact absurd hc2 hnc
      · exact hA r1 hm1 r2 hm2 hc1 hc2 hrm
  · intro room1 hroom1 hav1 r hr hrm
    rcases mem_updRes hr with rfl | ⟨hmem, _⟩
    · exact hnc
    · exact hV room1 hroom1 hav1 r hmem hrm

theorem sysInv_check_out (s : HotelManagementSystem) (hInv : SysInv s) (rid : Nat)
    (pay : ℤ → Bool) : SysInv (s.check_out rid pay).2 := by
  unfold HotelManagementSystem.check_out
  cases hres : findRes s rid with
  | none => exact hInv
  | some res =>
    dsimp only
    by_cases hconf : res.status = ReservationStatus.CONFIRMED
    · rw [if_pos hconf]
      cases hroom : findRoom s res.roomId with
      | none => exact hInv
      | some room =>
        dsimp only
        by_cases hpay : pay (resAmount room res) = true
        · rw [if_pos hpay]
          cases hco : Room.check_out room with
          | ok room2 =>
            dsimp only
            obtain ⟨hocc, rfl⟩ := Room.check_out_ok hco
            exact sysInv_release s hInv rid res room _ hres hconf hroom
          | error e => exact hInv
        · rw [if_neg hpay]
          exact hInv
    · rw [if_neg hconf]
      exact hInv

theorem sysInv_cancel (s : HotelManagementSystem) (hInv : SysInv s) (rid : Nat) :
    SysInv (s.cancel_reservation rid).2 := by
  unfold HotelManagementSystem.cancel_reservation
  cases hres : findRes s rid with
  | none => exact hInv
  | some res =>
    dsimp only
    cases hroom : findRoom s res.roomId with
    | none => exact hInv
    | some room =>
      dsimp only
      by_cases hconf : res.status = ReservationStatus.CONFIRMED
      · cases hco : Room.check_out room with
        | ok room2 =>
          have hcanc : Reservation.cancel res room =
              (none, { res with status := ReservationStatus.CANCELLED }, room2) := by
            unfold Reservation.cancel
            rw [if_pos hconf, hco]
          rw [hcanc]
          obtain ⟨hocc, rfl⟩ := Room.check_out_ok hco
          exact sysInv_release s hInv rid res room s.charges hres hconf hroom
        | error e =>
          have hcanc : Reservation.cancel res room =
              (some e, { res with status := ReservationStatus.CANCELLED }, room) := by
            unfold Reservation.cancel
            rw [if_pos hconf, hco]
          rw [hcanc]
          exact sysInv_updCancelled s hInv rid res _ hres (findRes_some hres).2 (fun hx => ReservationStatus.noConfusion hx)
      · have hcanc : Reservation.cancel res room =
            (some HError.reservationNotConfirmed, res, room) := by
          unfold Reservation.cancel
          rw [if_neg hconf]
        rw [hcanc]
        exact sysInv_updCancelled s hInv rid res res hres (findRes_some hres).2 hconf

theorem sysInv_step (s : HotelManagementSystem) (hInv : SysInv s) (op : Op) :
    SysInv (step s op).2 := by
  cases op with
  | book g r d1 d2 => exact sysInv_book_room s hInv g r d1 d2
  | checkIn rid => exact sysInv_check_in s hInv rid
  | checkOut rid pay => exact sysInv_check_out s hInv rid pay
  | cancel rid => exact sysInv_cancel s hInv rid

theorem sysInv_run (s : HotelManagementSystem) (hInv : SysInv s) (ops : List Op) :
    SysInv (run s ops) := by
  induction ops generalizing s with
  | nil => exact hInv
  | cons op ops ih => exact ih _ (sysInv_step s hInv op)

theorem sysInv_init (pool : List (Nat × RoomType × ℤ)) : SysInv (initHMS pool) := by
  refine ⟨?_, ?_, ?_, ?_⟩
  · intro r hr
    exact absurd hr (List.not_mem_nil r)
  · exact List.nodup_nil
  · intro r1 h1 r2 h2 hc1 hc2 hrm
    exact absurd h1 (List.not_mem_nil r1)
  · intro room hm hav r hr hrm
    exact absurd hr (List.not_mem_nil r)

theorem reachable_sysInv (s : HotelManagementSystem) (h : Reachable s) : SysInv s := by
  obtain ⟨pool, ops, rfl⟩ := h
  exact sysInv_run _ (sysInv_init pool) ops

/- From the pairwise invariant to the counting form of the uniqueness property. -/

theorem confirmedCount_le_one (s : HotelManagementSystem) (hInv : SysInv s) (roomId : Nat) :
    confirmedCount s roomId ≤ 1 := by
  obtain ⟨hF, hN, hA, hV⟩ := hInv
  unfold confirmedCount
  cases hl : s.reservations.filter
      (fun r => decide (r.roomId = roomId ∧ r.status = ReservationStatus.CONFIRMED)) with
  | nil => simp
  | cons a t =>
    cases t with
    | nil => simp
    | cons b u =>
      exfalso
      have ha : a ∈ s.reservations.filter
          (fun r => decide (r.roomId = roomId ∧ r.status = ReservationStatus.CONFIRMED)) :=
        hl.symm ▸ List.mem_cons_self a (b :: u)
      have hb : b ∈ s.reservations.filter
          (fun r => decide (r.roomId = roomId ∧ r.status = ReservationStatus.CONFIRMED)) :=
        hl.symm ▸ List.mem_cons.mpr (Or.inr (List.mem_cons_self b u))
      have ha2 := List.mem_filter.mp ha
      have hb2 := List.mem_filter.mp hb
      obtain ⟨haroom, hastat⟩ := of_decide_eq_true ha2.2
      obtain ⟨hbroom, hbstat⟩ := of_decide_eq_true hb2.2
      have hid : a.id = b.id :=
        hA a ha2.1 b hb2.1 hastat hbstat (haroom.trans hbroom.symm)
      have hnd : ((s.reservations.filter
          (fun r => decide (r.roomId = roomId ∧ r.status = ReservationStatus.CONFIRMED))).map
            Reservation.id).Nodup :=
        List.Nodup.sublist (List.Sublist.map Reservation.id (List.filter_sublist _)) hN
      rw [hl] at hnd
      simp only [List.map_cons] at hnd
      exact (List.nodup_cons.mp hnd).1
        (by rw [hid]; exact List.mem_map.mpr ⟨b, List.mem_cons_self b u, rfl⟩)

/-- Claim C4: in every state reachable by any sequence of book, checkIn,
checkOut and cancel operations, each resource is referenced by at most one
reservation whose status is Confirmed. -/
theorem claim_C4_at_most_one_confirmed (s : HotelManagementSystem) (h : Reachable s)
    (roomId : Nat) : confirmedCount s roomId ≤ 1 :=
  confirmedCount_le_one s (reachable_sysInv s h) roomId

theorem claim_C4_witness :
    Reachable sBooked ∧ confirmedCount sBooked 1 ≤ 1 :=
  ⟨⟨poolR1, [Op.book 7 1 0 2], rfl⟩,
   claim_C4_at_most_one_confirmed sBooked ⟨poolR1, [Op.book 7 1 0 2], rfl⟩ 1⟩

/- Evaluation lemmas for book_room, shared by the serialisation argument. -/

theorem book_room_available (s : HotelManagementSystem) (g roomId : Nat) (d1 d2 : ℤ)
    (room : Room) (hroom : findRoom s roomId = some room)
    (hav : room.status = RoomStatus.AVAILABLE) :
    s.book_room g roomId d1 d2 =
      (HResult.booked s.nextId,
       { s with rooms := updRoom s.rooms roomId { room with status := RoomStatus.BOOKED },
                reservations := Reservation.create s.nextId g roomId d1 d2 :: s.reservations,
                nextId := s.nextId + 1 }) := by
  unfold HotelManagementSystem.book_room
  rw [hroom]
  dsimp only
  rw [if_pos hav]

theorem book_room_unavailable (s : HotelManagementSystem) (g roomId : Nat) (d1 d2 : ℤ)
    (room : Room) (hroom : findRoom s roomId = some room)
    (hna : room.status ≠ RoomStatus.AVAILABLE) :
    s.book_room g roomId d1 d2 = (HResult.bookFailed, s) := by
  unfold HotelManagementSystem.book_room
  rw [hroom]
  dsimp only
  rw [if_neg hna]

theorem runBooks_cons (s : HotelManagementSystem) (roomId : Nat) (c : Nat × ℤ × ℤ)
    (cs : List (Nat × ℤ × ℤ)) :
    runBooks s roomId (c :: cs) =
      ((s.book_room c.1 roomId c.2.1 c.2.2).1 ::
        (runBooks (s.book_room c.1 roomId c.2.1 c.2.2).2 roomId cs).1,
       (runBooks (s.book_room c.1 roomId c.2.1 c.2.2).2 roomId cs).2) := rfl

/-- Once the room is not AVAILABLE any more, every further book call fails and
leaves the whole state untouched. -/
theorem books_after_unavailable (s : HotelManagementSystem) (roomId : Nat) (room : Room)
    (hroom : findRoom s roomId = some room) (hna : room.status ≠ RoomStatus.AVAILABLE)
    (calls : List (Nat × ℤ × ℤ)) :
    runBooks s roomId calls = (calls.map (fun _ => HResult.bookFailed), s) := by
  induction calls with
  | nil => rfl
  | cons c cs ih =>
    rw [runBooks_cons, book_room_unavailable s c.1 roomId c.2.1 c.2.2 room hroom hna]
    dsimp only
    rw [ih]
    rfl

theorem countP_const_false {α : Type} (l : List α) : l.countP (fun _ => false) = 0 := by
  induction l with
  | nil => rfl
  | cons a t ih =>
    rw [List.countP_cons]
    simp [ih]

theorem countP_const_true {α : Type} (l : List α) : l.countP (fun _ => true) = l.length := by
  induction l with
  | nil => rfl
  | cons a t ih =>
    rw [List.countP_cons]
    simp [ih]

/-- Claim C8: the coordinator lock serialises concurrent book calls, so any
interleaving of N book calls against the same single AVAILABLE resource is some
sequential order of atomic calls; in every such order exactly one call returns
a reservation and the other N-1 return the None that models
ResourceUnavailable. -/
theorem claim_C8_exactly_one_booking (s : HotelManagementSystem) (roomId : Nat) (room : Room)
    (hroom : findRoom s roomId = some room) (hav : room.status = RoomStatus.AVAILABLE)
    (calls : List (Nat × ℤ × ℤ)) (hne : calls ≠ []) :
    (runBooks s roomId calls).1.countP isBooked = 1 ∧
    (runBooks s roomId calls).1.countP (fun r => decide (r = HResult.bookFailed)) =
      calls.length - 1 := by
  cases calls with
  | nil => exact absurd rfl hne
  | cons c cs =>
    obtain ⟨hmem, hid⟩ := findRoom_some hroom
    rw [runBooks_cons, book_room_available s c.1 roomId c.2.1 c.2.2 room hroom hav]
    dsimp only
    have hfind2 : findRoom
        { s with rooms := updRoom s.rooms roomId { room with status := RoomStatus.BOOKED },
                 reservations := Reservation.create s.nextId c.1 roomId c.2.1 c.2.2
                   :: s.reservations,
                 nextId := s.nextId + 1 } roomId
        = some { room with status := RoomStatus.BOOKED } :=
      find?_updRoom_self hid hroom
    rw [books_after_unavailable _ roomId { room with status := RoomStatus.BOOKED } hfind2
        (fun hx => RoomStatus.noConfusion hx) cs]
    dsimp only
    constructor
    · rw [List.countP_cons, List.countP_map]
      have h0 : cs.countP ((fun r => isBooked r) ∘ (fun _ => HResult.bookFailed)) =
          cs.countP (fun _ => false) := rfl
      simp [isBooked, countP_const_false, h0]
    · rw [List.countP_cons, List.countP_map]
      have h1 : cs.countP ((fun r => decide (r = HResult.bookFailed)) ∘
          (fun _ => HResult.bookFailed)) = cs.countP (fun _ => true) := rfl
      simp [h1, countP_const_true]

theorem claim_C8_witness :
    (runBooks sInit 1 callsW).1.countP isBooked = 1 ∧
    (runBooks sInit 1 callsW).1.countP (fun r => decide (r = HResult.bookFailed)) =
      callsW.length - 1 :=
  claim_C8_exactly_one_booking sInit 1 roomA (by decide) rfl callsW (by decide)

/- Evaluation lemmas for check_out and cancel_reservation, shared below. -/

theorem check_out_payment_failed (s : HotelManagementSystem) (rid : Nat)
    (res : Reservation) (room : Room) (pay : ℤ → Bool)
    (hres : findRes s rid = some res) (hconf : res.status = ReservationStatus.CONFIRMED)
    (hroom : findRoom s res.roomId = some room)
    (hpay : pay (resAmount room res) = false) :
    s.check_out rid pay = (HResult.err HError.paymentFailed, s) := by
  unfold HotelManagementSystem.check_out
  rw [hres]
  dsimp only
  rw [if_pos hconf, hroom]
  dsimp only
  rw [if_neg (by simp [hpay])]

theorem check_out_success (s : HotelManagementSystem) (rid : Nat)
    (res : Reservation) (room : Room) (pay : ℤ → Bool)
    (hres : findRes s rid = some res) (hconf : res.status = ReservationStatus.CONFIRMED)
    (hroom : findRoom s res.roomId = some room) (hocc : room.status = RoomStatus.OCCUPIED)
    (hpay : pay (resAmount room res) = true) :
    s.check_out rid pay =
      (HResult.ok,
       { s with rooms := updRoom s.rooms res.roomId { room with status := RoomStatus.AVAILABLE },
                reservations := delRes s.reservations rid,
                charges := s.charges ++ [resAmount room res] }) := by
  unfold HotelManagementSystem.check_out
  rw [hres]
  dsimp only
  rw [if_pos hconf, hroom]
  dsimp only
  rw [if_pos hpay]
  have hco : Room.check_out room = Except.ok { room with status := RoomStatus.AVAILABLE } := by
    unfold Room.check_out
    rw [if_pos hocc]
  rw [hco]

theorem check_out_booked_charged (s : HotelManagementSystem) (rid : Nat)
    (res : Reservation) (room : Room) (pay : ℤ → Bool)
    (hres : findRes s rid = some res) (hconf : res.status = ReservationStatus.CONFIRMED)
    (hroom : findRoom s res.roomId = some room) (hnocc : room.status ≠ RoomStatus.OCCUPIED)
    (hpay : pay (resAmount room res) = true) :
    s.check_out rid pay =
      (HResult.err HError.roomNotOccupied,
       { s with charges := s.charges ++ [resAmount room res] }) := by
  unfold HotelManagementSystem.check_out
  rw [hres]
  dsimp only
  rw [if_pos hconf, hroom]
  dsimp only
  rw [if_pos hpay]
  have hco : Room.check_out room = Except.error HError.roomNotOccupied := by
    unfold Room.check_out
    rw [if_neg hnocc]
  rw [hco]

theorem cancel_reservation_raises (s : HotelManagementSystem) (rid : Nat)
    (res : Reservation) (room : Room)
    (hres : findRes s rid = some res) (hconf : res.status = ReservationStatus.CONFIRMED)
    (hroom : findRoom s res.roomId = some room) (hnocc : room.status ≠ RoomStatus.OCCUPIED) :
    s.cancel_reservation rid =
      (HResult.err HError.roomNotOccupied,
       { s with reservations :=
           updRes s.reservations rid { res with status := ReservationStatus.CANCELLED } }) := by
  unfold HotelManagementSystem.cancel_reservation
  rw [hres]
  dsimp only
  rw [hroom]
  dsimp only
  have hcanc : Reservation.cancel res room =
      (some HError.roomNotOccupied, { res with status := ReservationStatus.CANCELLED }, room) := by
    unfold Reservation.cancel
    rw [if_pos hconf]
    have hco : Room.check_out room = Except.error HError.roomNotOccupied := by
      unfold Room.check_out
      rw [if_neg hnocc]
    rw [hco]
  rw [hcanc]

theorem cancel_reservation_unknown (s : HotelManagementSystem) (rid : Nat)
    (h : findRes s rid = none) : s.cancel_reservation rid = (HResult.ok, s) := by
  unfold HotelManagementSystem.cancel_reservation
  rw [h]

theorem check_in_unknown (s : HotelManagementSystem) (rid : Nat)
    (h : findRes s rid = none) :
    s.check_in rid = (HResult.err HError.invalidReservation, s) := by
  unfold HotelManagementSystem.check_in
  rw [h]

theorem check_out_unknown (s : HotelManagementSystem) (rid : Nat) (pay : ℤ → Bool)
    (h : findRes s rid = none) :
    s.check_out rid pay = (HResult.err HError.invalidReservation, s) := by
  unfold HotelManagementSystem.check_out
  rw [h]

/-- Claim C9: in every reachable state holding a Confirmed reservation whose
room is merely BOOKED (guest not yet arrived), cancel raises roomNotOccupied
and commits a half-done mutation: afterwards the reservation is CANCELLED yet
still present in the active index, and the room is still BOOKED. -/
theorem claim_C9_cancel_reserved_raises (s : HotelManagementSystem) (rid : Nat)
    (res : Reservation) (room : Room) (_hreach : Reachable s)
    (hres : findRes s rid = some res) (hconf : res.status = ReservationStatus.CONFIRMED)
    (hroom : findRoom s res.roomId = some room) (hbooked : room.status = RoomStatus.BOOKED) :
    (s.cancel_reservation rid).1 = HResult.err HError.roomNotOccupied ∧
    findRes (s.cancel_reservation rid).2 rid =
      some { res with status := ReservationStatus.CANCELLED } ∧
    findRoom (s.cancel_reservation rid).2 res.roomId = some room := by
  have hnocc : room.status ≠ RoomStatus.OCCUPIED := by
    rw [hbooked]
    exact fun hx => RoomStatus.noConfusion hx
  have hc := cancel_reservation_raises s rid res room hres hconf hroom hnocc
  rw [hc]
  refine ⟨rfl, ?_, ?_⟩
  · exact find?_updRes_self (findRes_some hres).2 hres
  · exact hroom

theorem claim_C9_witness :
    (sBooked.cancel_reservation 0).1 = HResult.err HError.roomNotOccupied ∧
    findRes (sBooked.cancel_reservation 0).2 0 =
      some { resB with status := ReservationStatus.CANCELLED } ∧
    findRoom (sBooked.cancel_reservation 0).2 resB.roomId = some roomB :=
  claim_C9_cancel_reserved_raises sBooked 0 resB roomB
    ⟨poolR1, [Op.book 7 1 0 2], rfl⟩ (by decide) rfl (by decide) rfl

/-- Claim C10: in every reachable state holding a Confirmed reservation whose
room is merely BOOKED (guest never checked in), checkOut with a succeeding
payment capability takes the payment (the charge is logged) and then raises
roomNotOccupied, leaving the room BOOKED and the reservation Confirmed and
still in the active index. -/
theorem claim_C10_checkout_reserved_charges (s : HotelManagementSystem) (rid : Nat)
    (res : Reservation) (room : Room) (pay : ℤ → Bool) (_hreach : Reachable s)
    (hres : findRes s rid = some res) (hconf : res.status = ReservationStatus.CONFIRMED)
    (hroom : findRoom s res.roomId = some room) (hbooked : room.status = RoomStatus.BOOKED)
    (hpay : pay (resAmount room res) = true) :
    s.check_out rid pay =
      (HResult.err HError.roomNotOccupied,
       { s with charges := s.charges ++ [resAmount room res] }) ∧
    findRes (s.check_out rid pay).2 rid = some res ∧
    findRoom (s.check_out rid pay).2 res.roomId = some room := by
  have hnocc : room.status ≠ RoomStatus.OCCUPIED := by
    rw [hbooked]
    exact fun hx => RoomStatus.noConfusion hx
  have hc := check_out_booked_charged s rid res room pay hres hconf hroom hnocc hpay
  rw [hc]
  exact ⟨rfl, hres, hroom⟩

theorem claim_C10_witness :
    sBooked.check_out 0 (fun _ => true) =
      (HResult.err HError.roomNotOccupied,
       { sBooked with charges := sBooked.charges ++ [resAmount roomB resB] }) ∧
    findRes (sBooked.check_out 0 (fun _ => true)).2 0 = some resB ∧
    findRoom (sBooked.check_out 0 (fun _ => true)).2 resB.roomId = some roomB :=
  claim_C10_checkout_reserved_charges sBooked 0 resB roomB (fun _ => true)
    ⟨poolR1, [Op.book 7 1 0 2], rfl⟩ (by decide) rfl (by decide) rfl rfl

/-- Claim C2 counterexample: in the reachable state where the guest has not yet
checked in, a failing checkOut leaves the state unchanged (first half of the
claim holds), yet the subsequent checkOut with an always-succeeding capability
does not return Ok (it raises roomNotOccupied after taking the payment), so the
claim as stated is false. -/
theorem claim_C2_counterexample :
    Reachable sBooked ∧
    sBooked.check_out 0 (fun _ => false) = (HResult.err HError.paymentFailed, sBooked) ∧
    (sBooked.check_out 0 (fun _ => true)).1 ≠ HResult.ok :=
  ⟨⟨poolR1, [Op.book 7 1 0 2], rfl⟩, by decide, by decide⟩

/-- Claim C2 (amended): for every reachable state, a checkOut on an existing
Confirmed reservation whose payment capability returns failure leaves the whole
state (resource status, reservation status, active index, charge log) exactly
as before the call; and when the resource is InUse, a subsequent checkOut of
the same reservation identity with a succeeding capability returns Ok, frees
the room and removes the reservation from the active index. -/
theorem claim_C2_checkout_failure_atomic (s : HotelManagementSystem) (rid : Nat)
    (res : Reservation) (room : Room) (pay : ℤ → Bool) (_hreach : Reachable s)
    (hres : findRes s rid = some res) (hconf : res.status = ReservationStatus.CONFIRMED)
    (hroom : findRoom s res.roomId = some room)
    (hpay : pay (resAmount room res) = false) :
    s.check_out rid pay = (HResult.err HError.paymentFailed, s) ∧
    (room.status = RoomStatus.OCCUPIED → ∀ pay2 : ℤ → Bool,
      pay2 (resAmount room res) = true →
      (s.check_out rid pay2).1 = HResult.ok ∧
      findRes (s.check_out rid pay2).2 rid = none ∧
      findRoom (s.check_out rid pay2).2 res.roomId =
        some { room with status := RoomStatus.AVAILABLE }) := by
  refine ⟨check_out_payment_failed s rid res room pay hres hconf hroom hpay, ?_⟩
  intro hocc pay2 hpay2
  have hc := check_out_success s rid res room pay2 hres hconf hroom hocc hpay2
  rw [hc]
  refine ⟨rfl, ?_, ?_⟩
  · exact find?_delRes_self s.reservations rid
  · exact find?_updRoom_self (findRoom_some hroom).2 hroom

theorem claim_C2_witness :
    sOccupied.check_out 0 (fun _ => false) = (HResult.err HError.paymentFailed, sOccupied) ∧
    (sOccupied.check_out 0 (fun _ => true)).1 = HResult.ok ∧
    findRes (sOccupied.check_out 0 (fun _ => true)).2 0 = none ∧
    findRoom (sOccupied.check_out 0 (fun _ => true)).2 resB.roomId =
      some { roomO with status := RoomStatus.AVAILABLE } :=
  have h := claim_C2_checkout_failure_atomic sOccupied 0 resB roomO (fun _ => false)
    ⟨poolR1, [Op.book 7 1 0 2, Op.checkIn 0], rfl⟩ (by decide) rfl (by decide) rfl
  ⟨h.1, (h.2 rfl (fun _ => true) rfl).1, (h.2 rfl (fun _ => true) rfl).2.1,
   (h.2 rfl (fun _ => true) rfl).2.2⟩

/-- Claim C5 counterexample: release (Room.check_out) from Reserved (BOOKED)
does not succeed and move the room to Available, contrary to the claim; it
raises the invalid-transition error roomNotOccupied. -/
theorem claim_C5_counterexample :
    Room.check_out roomB = Except.error HError.roomNotOccupied ∧
    Room.check_out roomB ≠ Except.ok { roomB with status := RoomStatus.AVAILABLE } :=
  ⟨rfl, fun hx => Except.noConfusion hx⟩

/-- Claim C5 (amended): release succeeds and moves the resource to Available
exactly when its status is InUse (OCCUPIED); from Available or Reserved it
fails with the invalid-transition error roomNotOccupied. -/
theorem claim_C5_release_characterisation (r : Room) :
    (r.status = RoomStatus.OCCUPIED →
      Room.check_out r = Except.ok { r with status := RoomStatus.AVAILABLE }) ∧
    (r.status ≠ RoomStatus.OCCUPIED →
      Room.check_out r = Except.error HError.roomNotOccupied) := by
  constructor
  · intro h
    unfold Room.check_out
    rw [if_pos h]
  · intro h
    unfold Room.check_out
    rw [if_neg h]

theorem claim_C5_witness :
    Room.check_out roomO = Except.ok { roomO with status := RoomStatus.AVAILABLE } ∧
    Room.check_out roomA = Except.error HError.roomNotOccupied :=
  ⟨(claim_C5_release_characterisation roomO).1 rfl,
   (claim_C5_release_characterisation roomA).2 (fun hx => RoomStatus.noConfusion hx)⟩

/-- Claim C6 counterexample: constructing a Reservation with start 5 and end 3
(start >= end) is not rejected: the object is created CONFIRMED with exactly
those dates, and book_room accepts the same dates on an Available room,
returning a reservation rather than rejecting. -/
theorem claim_C6_counterexample :
    (Reservation.create 0 7 1 5 3).status = ReservationStatus.CONFIRMED ∧
    ¬ (Reservation.create 0 7 1 5 3).check_in_date <
        (Reservation.create 0 7 1 5 3).check_out_date ∧
    (sInit.book_room 7 1 5 3).1 = HResult.booked 0 :=
  ⟨rfl, by decide, by decide⟩

/-- Claim C6 (amended): Reservation construction performs no date validation:
for every pair of dates, including start >= end, the Reservation is constructed
with status Confirmed and stores exactly the given dates. -/
theorem claim_C6_no_date_validation (id g r : Nat) (d1 d2 : ℤ) :
    (Reservation.create id g r d1 d2).status = ReservationStatus.CONFIRMED ∧
    (Reservation.create id g r d1 d2).check_in_date = d1 ∧
    (Reservation.create id g r d1 d2).check_out_date = d2 :=
  ⟨rfl, rfl, rfl⟩

/-- Claim C7 counterexample: cancel on an identity absent from the active index
returns successfully with no effect at all, instead of reporting the NotFound
failure to the caller. -/
theorem claim_C7_counterexample :
    sInit.cancel_reservation 5 = (HResult.ok, sInit) := by decide

/-- Claim C7 (amended): cancel on an identity not present in the active index
silently succeeds with no effect (the NotFound failure is swallowed by the
if reservation: guard), while checkIn and checkOut do report the
unknown-identity failure to the caller. -/
theorem claim_C7_unknown_id_behaviour (s : HotelManagementSystem) (rid : Nat)
    (h : findRes s rid = none) :
    s.cancel_reservation rid = (HResult.ok, s) ∧
    s.check_in rid = (HResult.err HError.invalidReservation, s) ∧
    (∀ pay : ℤ → Bool, s.check_out rid pay = (HResult.err HError.invalidReservation, s)) :=
  ⟨cancel_reservation_unknown s rid h, check_in_unknown s rid h,
   fun pay => check_out_unknown s rid pay h⟩

theorem claim_C7_witness :
    sInit.cancel_reservation 5 = (HResult.ok, sInit) ∧
    sInit.check_in 5 = (HResult.err HError.invalidReservation, sInit) ∧
    sInit.check_out 5 (fun _ => true) = (HResult.err HError.invalidReservation, sInit) :=
  have h := claim_C7_unknown_id_behaviour sInit 5 rfl
  ⟨h.1, h.2.1, h.2.2 (fun _ => true)⟩

/-- Claim C1: evaluation of the code at the failing input.  With a checkIn
between book and cancel the round trip behaves as the claim says; without it,
cancel raises roomNotOccupied, the room stays BOOKED instead of returning to
AVAILABLE, and the reservation stays in the active index (now CANCELLED),
contradicting the documented intent that cancel frees the room. -/
theorem claim_C1_code_bug_eval :
    ((sOccupied.cancel_reservation 0).1 = HResult.ok ∧
     findRoom (sOccupied.cancel_reservation 0).2 1 =
       some { roomB with status := RoomStatus.AVAILABLE } ∧
     findRes (sOccupied.cancel_reservation 0).2 0 = none) ∧
    ((sBooked.cancel_reservation 0).1 = HResult.err HError.roomNotOccupied ∧
     findRoom (sBooked.cancel_reservation 0).2 1 = some roomB ∧
     findRes (sBooked.cancel_reservation 0).2 0 =
       some { resB with status := ReservationStatus.CANCELLED }) := by
  decide

/-- Claim C3: evaluation of the code at the failing input: a reachable state
(book then cancel without checkIn) in which no Confirmed reservation references
room 1 and yet its status is BOOKED (Reserved), where the claimed invariant
requires AVAILABLE. -/
theorem claim_C3_code_bug_eval :
    Reachable sAfterBadCancel ∧
    confirmedCount sAfterBadCancel 1 = 0 ∧
    findRoom sAfterBadCancel 1 = some roomB :=
  ⟨⟨poolR1, [Op.book 7 1 0 2, Op.cancel 0], rfl⟩, by decide, by decide⟩
